import Mathlib

/-!
Verification of the stochastic sampling and profile-assembly core of
src/generating_patient_profiles.py.

The embedding models pandas rows as a structure, the data frame as a list of
rows, Python float arithmetic as exact rational arithmetic, and the two
exception sites of the core (the Python ZeroDivisionError raised by the
normalisation division at line 82 when the disorder has no records, and the
numpy ValueError raised by np.random.choice when it is handed a negative
size) as an Except result.  Randomness is passed in explicitly: the rounded
normal draw of line 87 and the uniform variates consumed by
np.random.choice are fields of an oracle structure, so every claim is
quantified over the random stream.
-/

/-- One row of the phenotype frequency table, with the columns the core
reads: disorder, patient_name, discovery_group, probability,
prerequisite_needed, prerequisite_type and HPO_category. -/
structure Record where
  disorder : String
  patient_name : String
  discovery_group : String
  probability : Rat
  prerequisite_needed : String
  prerequisite_type : String
  HPO_category : String
deriving DecidableEq

/-- The two column names passed as the column_name argument of
phenotype_choice in the source (line 119 and line 149). -/
inductive ColKey where
  | discovery_group
  | HPO_category
deriving DecidableEq

/-- Generic column access, modelling current_disorder[column_name] at
line 74 of the source. -/
def Record.colVal (r : Record) : ColKey → String
  | ColKey.discovery_group => r.discovery_group
  | ColKey.HPO_category => r.HPO_category

/-- The two exceptions the core can raise: the Python ZeroDivisionError from
the float division at line 82 when the disorder total weight is 0.0, and
the numpy ValueError from np.random.choice at line 96 when it receives a
negative size. -/
inductive PyError where
  | ZeroDivisionError
  | ValueError
deriving DecidableEq

/-- Decidable equality of results, so that concrete runs of the embedded
functions can be checked by evaluation. -/
instance exceptDecEq {ε α : Type} [DecidableEq ε] [DecidableEq α] : DecidableEq (Except ε α)
  | Except.error a, Except.error b =>
    decidable_of_iff (a = b) ⟨fun h => by rw [h], fun h => Except.error.inj h⟩
  | Except.error _, Except.ok _ => isFalse fun h => Except.noConfusion h
  | Except.ok _, Except.error _ => isFalse fun h => Except.noConfusion h
  | Except.ok a, Except.ok b =>
    decidable_of_iff (a = b) ⟨fun h => by rw [h], fun h => Except.ok.inj h⟩

/-- Random oracle: normalRound models round(np.random.normal(mean, std))
at line 87 (a rounded draw, arbitrary here since the claims quantify over
the stream), and us models the uniform variates that drive the weighted
selection inside np.random.choice at line 96. -/
structure Rng where
  normalRound : Rat → Rat → Int
  us : Nat → Rat

/-- Models round(len(a) * 0.8) at line 94 of the source.  The exact value
4n/5 has fractional part in 0, 1/5, 2/5, 3/5, 4/5, never 1/2, so the
Python round-half-to-even tie rule never fires and rounding to nearest is
(8n + 5) / 10 in natural division. -/
def clamp08 (n : Nat) : Nat := (8 * n + 5) / 10

/-- One weighted draw without replacement: walk the cumulative weights until
the variate u falls inside an item's mass, return that item and the list
with it removed.  This is the elementary step of the weighted
sampling-without-replacement performed by np.random.choice with
replace=False at line 96.  A variate beyond the total mass falls back to
the head, so the pick is total on non-empty lists. -/
def pickAndRemove (u : Rat) : List (String × Rat) → Option ((String × Rat) × List (String × Rat))
  | [] => none
  | x :: xs =>
    if u < x.2 then
      some (x, xs)
    else
      match pickAndRemove (u - x.2) xs with
      | none => some (x, xs)
      | some (y, ys) => some (y, x :: ys)

/-- Weighted sampling without replacement of k items, consuming the uniform
stream us from index i: the model of np.random.choice(a, size, replace
False, p) at line 96 of the source. -/
def sampleWoR (k : Nat) (items : List (String × Rat)) (us : Nat → Rat) (i : Nat) : List String :=
  match k with
  | 0 => []
  | k' + 1 =>
    match pickAndRemove (us i) items with
    | none => []
    | some (x, rest) => x.1 :: sampleWoR k' rest us (i + 1)

/-- Catalog construction, lines 43 to 47 of the source: drop rows whose
probability is 0, then drop rows whose discovery_group is R. -/
def build_catalog (raw : List Record) : List Record :=
  (raw.filter (fun r => decide (r.probability ≠ 0))).filter
    (fun r => decide (r.discovery_group ≠ "R"))

/-- Line 70: df[df.disorder == disorder_name]. -/
def current_disorder_records (df : List Record) (disorder_name : String) : List Record :=
  df.filter (fun r => r.disorder == disorder_name)

/-- The denominator fsum(current_disorder.probability) of line 82: the
total probability weight of the disorder inside the frame handed to
phenotype_choice. -/
def disorder_total (df : List Record) (disorder_name : String) : Rat :=
  ((current_disorder_records df disorder_name).map (fun r => r.probability)).sum

/-- Lines 74 and 75: the rows of the disorder whose column equals the
requested value. -/
def subset_records (df : List Record) (disorder_name : String) (column : ColKey) (column_value : String) : List Record :=
  (current_disorder_records df disorder_name).filter (fun r => r.colVal column == column_value)

/-- Line 79: the probability column of the subset. -/
def subset_probs (df : List Record) (disorder_name : String) (column : ColKey) (column_value : String) : List Rat :=
  (subset_records df disorder_name column column_value).map (fun r => r.probability)

/-- Line 99: the normalised selection weights p / fsum(p) handed to
np.random.choice. -/
def normalized_probs (df : List Record) (disorder_name : String) (column : ColKey) (column_value : String) : List Rat :=
  (subset_probs df disorder_name column column_value).map
    (fun x => x / (subset_probs df disorder_name column column_value).sum)

/-- Lines 82 to 87: size = round(normal(total * subset_weight, that *
0.15)), the noise-perturbed rounded sample size, obtained here from the
random oracle. -/
def drawn_size (df : List Record) (d : String) (col : ColKey) (v : String) (tp : Int) (rng : Rng) : Int :=
  rng.normalRound ((tp : Rat) * ((subset_probs df d col v).sum / disorder_total df d))
    ((tp : Rat) * ((subset_probs df d col v).sum / disorder_total df d) * (3 / 20))

/-- Lines 93 and 94: if len(a) < size then size becomes round(len(a)*0.8),
otherwise the drawn size is used unchanged. -/
def effective_size (df : List Record) (d : String) (col : ColKey) (v : String) (tp : Int) (rng : Rng) : Int :=
  if ((subset_records df d col v).length : Int) < drawn_size df d col v tp rng then
    ((clamp08 (subset_records df d col v).length : Nat) : Int)
  else
    drawn_size df d col v tp rng

/-- The name and normalised weight pairs over which np.random.choice
samples at line 96. -/
def sample_items (df : List Record) (d : String) (col : ColKey) (v : String) : List (String × Rat) :=
  (subset_records df d col v).map
    (fun r => (r.patient_name, r.probability / (subset_probs df d col v).sum))

/-- Lines 63 to 100 of the source, phenotype_choice.  The division of line
82 raises ZeroDivisionError when the disorder total is zero; an empty
subset returns the empty array (line 90); np.random.choice raises
ValueError on a negative size and otherwise performs weighted sampling
without replacement of the clamped size. -/
def phenotype_choice (df : List Record) (disorder_name : String) (column : ColKey) (column_value : String) (total_phenotypes : Int) (rng : Rng) : Except PyError (List String) :=
  if disorder_total df disorder_name = 0 then
    Except.error PyError.ZeroDivisionError
  else if (subset_records df disorder_name column column_value).length = 0 then
    Except.ok []
  else if effective_size df disorder_name column column_value total_phenotypes rng < 0 then
    Except.error PyError.ValueError
  else
    Except.ok (sampleWoR (effective_size df disorder_name column column_value total_phenotypes rng).toNat
      (sample_items df disorder_name column column_value) rng.us 0)

/-- Line 146: prereq_df = df[df.prerequisite_needed == N]. -/
def prereq_frame (df : List Record) : List Record :=
  df.filter (fun r => r.prerequisite_needed == "N")

/-- Lines 146 to 151: the prerequisite draw for one flagged finding, a
phenotype_choice over the N-restricted frame partitioned by HPO_category. -/
def prereq_draw (df : List Record) (disorder : String) (finding : String) (tp : Int) (rng : Rng) : Except PyError (List String) :=
  phenotype_choice (prereq_frame df) disorder ColKey.HPO_category finding tp rng

/-- Models the guard at lines 156 and 157 of the source:
np.isin(np.hstack((sym, dev)), sampled_prereq).any == False.
The attribute .any is referenced without being called, so the comparison is
between a bound method object and False, which is always False in Python;
the guard therefore never holds, whatever the arguments are. -/
def prereq_merge_cond (_symdev : List String) (_sampled_prereq : String) : Bool := false

/-- Lines 144 to 159: iterate over the prerequisite types of the flagged
findings, draw candidates for each, and append each candidate to the
accumulated sampled_prereq_list when the merge guard holds. -/
def prereq_loop (df : List Record) (disorder : String) (tp : Int) (rngs : Nat → Rng) (symdev : List String) : List String → Nat → List String → Except PyError (List String)
  | [], _, acc => Except.ok acc
  | f :: rest, i, acc =>
    match prereq_draw df disorder f tp (rngs i) with
    | Except.error e => Except.error e
    | Except.ok prereq_finding =>
      prereq_loop df disorder tp rngs symdev rest (i + 1)
        (prereq_finding.foldl
          (fun cur s => if prereq_merge_cond symdev s then cur ++ [s] else cur) acc)

/-- Lines 135 to 139: the prerequisite_type values of the drawn findings of
the disorder that are flagged prerequisite_needed == Y. -/
def specific_fin_types (df : List Record) (disorder : String) (fin : List String) : List String :=
  (((current_disorder_records df disorder).filter
      (fun r => fin.contains r.patient_name)).filter
    (fun r => r.prerequisite_needed == "Y")).map (fun r => r.prerequisite_type)

/-- Lines 115 to 171 of the source, generate_single_patient: draw the F, S
and D partitions, resolve prerequisites for flagged findings, extend the
symptom segment, and concatenate patient_info, developmental traits,
symptoms and findings in that order.  Each phenotype_choice call receives
its own slice of the random stream via rngs. -/
def generate_single_patient (df : List Record) (disorder : String) (total_phenotypes : Int) (patient_info : List String) (rngs : Nat → Rng) : Except PyError (List String) :=
  match phenotype_choice df disorder ColKey.discovery_group "F" total_phenotypes (rngs 0) with
  | Except.error e => Except.error e
  | Except.ok fin =>
    match phenotype_choice df disorder ColKey.discovery_group "S" total_phenotypes (rngs 1) with
    | Except.error e => Except.error e
    | Except.ok sym =>
      match phenotype_choice df disorder ColKey.discovery_group "D" total_phenotypes (rngs 2) with
      | Except.error e => Except.error e
      | Except.ok dev =>
        if (specific_fin_types df disorder fin).isEmpty then
          Except.ok (patient_info ++ dev ++ sym ++ fin)
        else
          match prereq_loop df disorder total_phenotypes rngs (sym ++ dev) (specific_fin_types df disorder fin) 3 [] with
          | Except.error e => Except.error e
          | Except.ok sampled_prereq_list =>
            Except.ok (patient_info ++ dev ++
              (if sym.isEmpty then sampled_prereq_list else sym ++ sampled_prereq_list) ++ fin)

/-- Concrete catalog used for evaluations: a finding of disorder A flagged
as needing a prerequisite of category X, a symptom of disorder A, and a
second symptom of disorder A that carries HPO_category X and no
prerequisite flag. -/
def exF1 : Record := ⟨"A", "f1", "F", 1, "Y", "X", "W"⟩

def exS1 : Record := ⟨"A", "s1", "S", 1, "N", "", "Z"⟩

def exS2 : Record := ⟨"A", "s2", "S", 1, "N", "", "X"⟩

def exCat : List Record := [exF1, exS1, exS2]

/-- Raw table for catalog construction: the three live rows plus a
zero-probability row and a redundant row. -/
def exRaw : List Record :=
  exCat ++ [⟨"A", "z1", "S", 0, "N", "", "Z"⟩, ⟨"A", "r1", "R", 1, "N", "", "Z"⟩]

/-- Oracle whose rounded normal draw is always 1 and whose uniform stream
is constantly 0, so every weighted pick takes the first remaining item. -/
def exRng : Rng := ⟨fun _ _ => 1, fun _ => 0⟩

def exRngs : Nat → Rng := fun _ => exRng

/-- Oracle whose rounded normal draw is always -1: a noise draw far below
the mean, the case the spec calls InvalidSampleSize. -/
def negRng : Rng := ⟨fun _ _ => -1, fun _ => 0⟩

/-- Oracle whose rounded normal draw is always 0. -/
def zeroRng : Rng := ⟨fun _ _ => 0, fun _ => 0⟩

/-- Oracle whose rounded normal draw is always 5, exceeding the size of
every partition of the concrete catalog. -/
def bigRng : Rng := ⟨fun _ _ => 5, fun _ => 0⟩

/-- A successful pick returns an item of the list together with the list
minus that occurrence: the input is a permutation of the item consed onto
the rest. -/
theorem pickAndRemove_perm (u : Rat) (l : List (String × Rat)) (x : String × Rat) (rest : List (String × Rat)) (h : pickAndRemove u l = some (x, rest)) : l.Perm (x :: rest) := by
  induction l generalizing u x rest with
  | nil => simp [pickAndRemove] at h
  | cons a as ih =>
    simp only [pickAndRemove] at h
    split at h
    · simp only [Option.some.injEq, Prod.mk.injEq] at h
      obtain ⟨rfl, rfl⟩ := h
      exact List.Perm.refl _
    · cases hrec : pickAndRemove (u - a.2) as with
      | none =>
        rw [hrec] at h
        simp only [Option.some.injEq, Prod.mk.injEq] at h
        obtain ⟨rfl, rfl⟩ := h
        exact List.Perm.refl _
      | some p =>
        obtain ⟨y, ys⟩ := p
        rw [hrec] at h
        simp only [Option.some.injEq, Prod.mk.injEq] at h
        obtain ⟨rfl, rfl⟩ := h
        exact (List.Perm.cons a (ih _ _ _ hrec)).trans (List.Perm.swap _ a ys)

/-- The pick is total on non-empty lists. -/
theorem pickAndRemove_isSome (u : Rat) (a : String × Rat) (as : List (String × Rat)) : ∃ y rest, pickAndRemove u (a :: as) = some (y, rest) := by
  simp only [pickAndRemove]
  split
  · exact ⟨a, as, rfl⟩
  · cases hrec : pickAndRemove (u - a.2) as with
    | none => exact ⟨a, as, rfl⟩
    | some p =>
      obtain ⟨y, ys⟩ := p
      exact ⟨y, a :: ys, rfl⟩

/-- The sampler returns exactly min k n items from a list of n items. -/
theorem sampleWoR_length (k : Nat) : ∀ (items : List (String × Rat)) (us : Nat → Rat) (i : Nat), (sampleWoR k items us i).length = min k items.length := by
  induction k with
  | zero => intro items us i; simp [sampleWoR]
  | succ k' ih =>
    intro items us i
    cases items with
    | nil => simp [sampleWoR, pickAndRemove]
    | cons a as =>
      obtain ⟨y, rest, hpick⟩ := pickAndRemove_isSome (us i) a as
      have hlen := (pickAndRemove_perm _ _ _ _ hpick).length_eq
      simp only [List.length_cons] at hlen
      simp only [sampleWoR, hpick, List.length_cons, ih]
      omega

/-- Every sampled name comes from the name column of the items. -/
theorem sampleWoR_mem (k : Nat) : ∀ (items : List (String × Rat)) (us : Nat → Rat) (i : Nat) (s : String), s ∈ sampleWoR k items us i → s ∈ items.map Prod.fst := by
  induction k with
  | zero => intro items us i s h; simp [sampleWoR] at h
  | succ k' ih =>
    intro items us i s h
    cases hp : pickAndRemove (us i) items with
    | none => simp [sampleWoR, hp] at h
    | some pr =>
      obtain ⟨y, rest⟩ := pr
      have hmap := (pickAndRemove_perm _ _ _ _ hp).map Prod.fst
      simp only [sampleWoR, hp] at h
      rcases List.mem_cons.mp h with rfl | htail
      · exact hmap.mem_iff.mpr (List.mem_cons_self _ _)
      · exact hmap.mem_iff.mpr (List.mem_cons_of_mem _ (ih rest us (i + 1) s htail))

/-- Sampling without replacement from items with pairwise distinct names
never repeats a name. -/
theorem sampleWoR_nodup (k : Nat) : ∀ (items : List (String × Rat)) (us : Nat → Rat) (i : Nat), (items.map Prod.fst).Nodup → (sampleWoR k items us i).Nodup := by
  induction k with
  | zero => intro items us i _; simp [sampleWoR]
  | succ k' ih =>
    intro items us i h
    cases hp : pickAndRemove (us i) items with
    | none => simp [sampleWoR, hp]
    | some pr =>
      obtain ⟨y, rest⟩ := pr
      have hmap := (pickAndRemove_perm _ _ _ _ hp).map Prod.fst
      have h2 : ((y :: rest).map Prod.fst).Nodup := hmap.nodup_iff.mp h
      simp only [List.map_cons] at h2
      obtain ⟨hnot, hrest⟩ := List.nodup_cons.mp h2
      simp only [sampleWoR, hp]
      exact List.nodup_cons.mpr
        ⟨fun hmem => hnot (sampleWoR_mem k' rest us (i + 1) y.1 hmem), ih rest us (i + 1) hrest⟩

/-- Reference sizing never exceeds the population: round(0.8 n) is at most
n. -/
theorem clamp08_le (n : Nat) : clamp08 n ≤ n := by
  unfold clamp08
  omega

/-- Summing a list divided pointwise by a constant divides the sum. -/
theorem sum_map_div (l : List Rat) (c : Rat) : (l.map (fun x => x / c)).sum = l.sum / c := by
  induction l with
  | nil => simp
  | cons a t ih => simp [ih, add_div]

/-- C3: for every query in which the given disorder has zero records in the
frame, phenotype_choice fails, and it fails with the specific failure mode
the spec taxonomy names UnknownDisorder: the ZeroDivisionError raised by
the normalisation division of line 82, whose denominator is the disorder
total weight.  It never succeeds there and never raises the other failure
mode (the ValueError of the sampler). -/
theorem C3_unknown_disorder_fails (df : List Record) (d : String) (col : ColKey) (v : String) (tp : Int) (rng : Rng) (h : current_disorder_records df d = []) : phenotype_choice df d col v tp rng = Except.error PyError.ZeroDivisionError := by
  have htot : disorder_total df d = 0 := by
    rw [disorder_total, h]
    simp
  simp [phenotype_choice, htot]

/-- Witness for C3 at a concrete catalog: disorder B has no records, and
the call fails with the division error. -/
theorem C3_unknown_disorder_fails_witness : current_disorder_records exCat "B" = [] ∧ phenotype_choice exCat "B" ColKey.discovery_group "F" 1 exRng = Except.error PyError.ZeroDivisionError :=
  ⟨by with_unfolding_all decide, C3_unknown_disorder_fails exCat "B" ColKey.discovery_group "F" 1 exRng (by with_unfolding_all decide)⟩

/-- C6 counterexample: the claim says an empty record subset always yields
the empty sequence and never an error, regardless of the disorder.  At the
concrete catalog the disorder B has no records, so its F subset is empty,
yet the call raises ZeroDivisionError instead of returning the empty
result: the division at line 82 runs before the empty-subset check at
line 90. -/
theorem C6_empty_subset_error_cex : subset_records exCat "B" ColKey.discovery_group "F" = [] ∧ phenotype_choice exCat "B" ColKey.discovery_group "F" 1 exRng = Except.error PyError.ZeroDivisionError := by
  constructor
  · with_unfolding_all decide
  · with_unfolding_all decide

/-- C6 amended: for every call whose record subset is empty, the result is
the empty sequence and no error is raised, provided the disorder total
weight in the frame is nonzero; when the disorder has zero records the
same call instead fails with ZeroDivisionError. -/
theorem C6_empty_subset_amended (df : List Record) (d : String) (col : ColKey) (v : String) (tp : Int) (rng : Rng) (h0 : disorder_total df d ≠ 0) (h1 : subset_records df d col v = []) : phenotype_choice df d col v tp rng = Except.ok [] := by
  unfold phenotype_choice
  rw [if_neg h0, if_pos (by rw [h1]; rfl)]

/-- Witness for the amended C6: disorder A is present but has no records
with discovery_group Q, and the call returns the empty sequence. -/
theorem C6_empty_subset_amended_witness : disorder_total exCat "A" ≠ 0 ∧ subset_records exCat "A" ColKey.discovery_group "Q" = [] ∧ phenotype_choice exCat "A" ColKey.discovery_group "Q" 1 exRng = Except.ok [] :=
  ⟨by with_unfolding_all decide, by with_unfolding_all decide,
    C6_empty_subset_amended exCat "A" ColKey.discovery_group "Q" 1 exRng (by with_unfolding_all decide) (by with_unfolding_all decide)⟩

/-- C2 counterexample: the claim says a negative computed size is clamped
to zero and the call returns an empty result instead of erroring.  At the
concrete catalog, with a noise draw of -1, the drawn size is negative and
the call raises ValueError: np.random.choice receives the negative size
unchanged. -/
theorem C2_negative_size_cex : drawn_size exCat "A" ColKey.discovery_group "F" 1 negRng < 0 ∧ phenotype_choice exCat "A" ColKey.discovery_group "F" 1 negRng = Except.error PyError.ValueError := by
  constructor
  · with_unfolding_all decide
  · with_unfolding_all decide

/-- C2 amended: when the computed noise-perturbed rounded size is exactly
zero the call returns the empty result, but a negative size is not
clamped: on a non-empty subset it reaches np.random.choice, which raises
ValueError. -/
theorem C2_size_zero_or_negative_amended (df : List Record) (d : String) (col : ColKey) (v : String) (tp : Int) (rng : Rng) (h0 : disorder_total df d ≠ 0) : (drawn_size df d col v tp rng = 0 → phenotype_choice df d col v tp rng = Except.ok []) ∧ (drawn_size df d col v tp rng < 0 → subset_records df d col v ≠ [] → phenotype_choice df d col v tp rng = Except.error PyError.ValueError) := by
  constructor
  · intro hz
    unfold phenotype_choice
    rw [if_neg h0]
    by_cases hlen : (subset_records df d col v).length = 0
    · rw [if_pos hlen]
    · rw [if_neg hlen]
      have heff : effective_size df d col v tp rng = 0 := by
        unfold effective_size
        rw [hz]
        split
        · rename_i hlt
          omega
        · rfl
      rw [heff]
      simp [sampleWoR]
  · intro hneg hne
    unfold phenotype_choice
    rw [if_neg h0, if_neg (fun hl => hne (List.length_eq_zero.mp hl))]
    have heff : effective_size df d col v tp rng = drawn_size df d col v tp rng := by
      unfold effective_size
      split
      · rename_i hlt
        omega
      · rfl
    rw [if_pos (by rw [heff]; exact hneg)]

/-- Witness for the amended C2, exercising both branches at the concrete
catalog: a zero draw yields the empty result and a -1 draw yields
ValueError. -/
theorem C2_size_zero_or_negative_amended_witness : disorder_total exCat "A" ≠ 0 ∧ drawn_size exCat "A" ColKey.discovery_group "F" 1 zeroRng = 0 ∧ phenotype_choice exCat "A" ColKey.discovery_group "F" 1 zeroRng = Except.ok [] ∧ drawn_size exCat "A" ColKey.discovery_group "F" 1 negRng < 0 ∧ subset_records exCat "A" ColKey.discovery_group "F" ≠ [] ∧ phenotype_choice exCat "A" ColKey.discovery_group "F" 1 negRng = Except.error PyError.ValueError :=
  ⟨by with_unfolding_all decide, by with_unfolding_all decide,
    (C2_size_zero_or_negative_amended exCat "A" ColKey.discovery_group "F" 1 zeroRng (by with_unfolding_all decide)).1 (by with_unfolding_all decide),
    by with_unfolding_all decide, by with_unfolding_all decide,
    (C2_size_zero_or_negative_amended exCat "A" ColKey.discovery_group "F" 1 negRng (by with_unfolding_all decide)).2 (by with_unfolding_all decide) (by with_unfolding_all decide)⟩

/-- C5: for every non-empty partition with pairwise distinct phenotype
names (the data model keys names uniquely inside a disorder and category),
a completed phenotype_choice call returns at most as many items as the
partition holds, with no duplicate names: np.random.choice with
replace=False draws distinct positions. -/
theorem C5_sample_bound_nodup (df : List Record) (d : String) (col : ColKey) (v : String) (tp : Int) (rng : Rng) (l : List String) (h1 : subset_records df d col v ≠ []) (h2 : ((subset_records df d col v).map (fun r => r.patient_name)).Nodup) (h3 : phenotype_choice df d col v tp rng = Except.ok l) : l.length ≤ (subset_records df d col v).length ∧ l.Nodup := by
  unfold phenotype_choice at h3
  split at h3
  · simp at h3
  · split at h3
    · rename_i hlen
      exact absurd (List.length_eq_zero.mp hlen) h1
    · split at h3
      · simp at h3
      · simp only [Except.ok.injEq] at h3
        subst h3
        have hitems : (sample_items df d col v).length = (subset_records df d col v).length := by
          simp [sample_items]
        have hnames : (sample_items df d col v).map Prod.fst = (subset_records df d col v).map (fun r => r.patient_name) := by
          simp [sample_items, List.map_map]
        constructor
        · rw [sampleWoR_length, hitems]
          exact min_le_right _ _
        · exact sampleWoR_nodup _ _ _ _ (by rw [hnames]; exact h2)

/-- Witness for C5 at the concrete catalog: the F partition of disorder A
has one record, and the completed call returns one name without
duplicates. -/
theorem C5_sample_bound_nodup_witness : subset_records exCat "A" ColKey.discovery_group "F" ≠ [] ∧ ((subset_records exCat "A" ColKey.discovery_group "F").map (fun r => r.patient_name)).Nodup ∧ (["f1"] : List String).length ≤ (subset_records exCat "A" ColKey.discovery_group "F").length ∧ (["f1"] : List String).Nodup :=
  ⟨by with_unfolding_all decide, by with_unfolding_all decide,
    C5_sample_bound_nodup exCat "A" ColKey.discovery_group "F" 1 exRng ["f1"]
      (by with_unfolding_all decide) (by with_unfolding_all decide)
      (by with_unfolding_all decide)⟩

/-- C7: for every completed call on a non-empty partition, the size used
for sampling, observable as the length of the returned sequence, is
round(0.8 times the partition size) when the noise-perturbed drawn size
exceeds the partition size, and the drawn size unchanged otherwise. -/
theorem C7_clamp_policy (df : List Record) (d : String) (col : ColKey) (v : String) (tp : Int) (rng : Rng) (l : List String) (h1 : subset_records df d col v ≠ []) (h2 : phenotype_choice df d col v tp rng = Except.ok l) : l.length = (if ((subset_records df d col v).length : Int) < drawn_size df d col v tp rng then ((clamp08 (subset_records df d col v).length : Nat) : Int) else drawn_size df d col v tp rng).toNat := by
  unfold phenotype_choice at h2
  split at h2
  · simp at h2
  · split at h2
    · rename_i hlen
      exact absurd (List.length_eq_zero.mp hlen) h1
    · split at h2
      · simp at h2
      · rename_i hneg
        simp only [Except.ok.injEq] at h2
        subst h2
        rw [sampleWoR_length]
        have hitems : (sample_items df d col v).length = (subset_records df d col v).length := by
          simp [sample_items]
        rw [hitems]
        show min (effective_size df d col v tp rng).toNat _ = (effective_size df d col v tp rng).toNat
        apply Nat.min_eq_left
        unfold effective_size at hneg ⊢
        split
        · rename_i hlt
          simpa using clamp08_le (subset_records df d col v).length
        · rename_i hge
          exact Int.toNat_le.mpr (Int.not_lt.mp hge)

/-- Witness for C7 at the concrete catalog: with a noise draw of 5 against
a one-record partition, the used size is round(0.8 * 1) = 1, and the call
returns one item. -/
theorem C7_clamp_policy_witness : subset_records exCat "A" ColKey.discovery_group "F" ≠ [] ∧ (["f1"] : List String).length = (if ((subset_records exCat "A" ColKey.discovery_group "F").length : Int) < drawn_size exCat "A" ColKey.discovery_group "F" 1 bigRng then ((clamp08 (subset_records exCat "A" ColKey.discovery_group "F").length : Nat) : Int) else drawn_size exCat "A" ColKey.discovery_group "F" 1 bigRng).toNat :=
  ⟨by with_unfolding_all decide,
    C7_clamp_policy exCat "A" ColKey.discovery_group "F" 1 bigRng ["f1"]
      (by with_unfolding_all decide) (by with_unfolding_all decide)⟩

/-- C9: for every sampling call over a non-empty partition of positive
probability weights (the catalog invariant), the normalised selection
weights handed to np.random.choice sum to exactly 1 in the rational model,
hence to 1 within floating-point tolerance in the source. -/
theorem C9_normalized_sum_one (df : List Record) (d : String) (col : ColKey) (v : String) (h1 : subset_records df d col v ≠ []) (h2 : ∀ r ∈ subset_records df d col v, 0 < r.probability) : (normalized_probs df d col v).sum = 1 := by
  have hpos : 0 < (subset_probs df d col v).sum := by
    apply List.sum_pos
    · intro x hx
      obtain ⟨r, hr, rfl⟩ := List.mem_map.mp hx
      exact h2 r hr
    · intro hcon
      exact h1 (List.map_eq_nil_iff.mp hcon)
  unfold normalized_probs
  rw [sum_map_div, div_self hpos.ne']

/-- Witness for C9 at the concrete catalog: the S partition of disorder A
holds two records of weight 1 each, and the normalised weights sum to 1. -/
theorem C9_normalized_sum_one_witness : subset_records exCat "A" ColKey.discovery_group "S" ≠ [] ∧ (∀ r ∈ subset_records exCat "A" ColKey.discovery_group "S", 0 < r.probability) ∧ (normalized_probs exCat "A" ColKey.discovery_group "S").sum = 1 :=
  ⟨by with_unfolding_all decide, by with_unfolding_all decide,
    C9_normalized_sum_one exCat "A" ColKey.discovery_group "S"
      (by with_unfolding_all decide) (by with_unfolding_all decide)⟩

/-- C10: every record of the constructed catalog has nonzero probability
and a discovery group other than R, and the invariant carries to every
record seen by a subsequent sampling partition over the catalog; the
embedding is purely functional, so no operation mutates the catalog. -/
theorem C10_catalog_invariant (raw : List Record) (r : Record) : (r ∈ build_catalog raw → r.probability ≠ 0 ∧ r.discovery_group ≠ "R") ∧ (∀ d col v, r ∈ subset_records (build_catalog raw) d col v → r.probability ≠ 0 ∧ r.discovery_group ≠ "R") := by
  have hmain : r ∈ build_catalog raw → r.probability ≠ 0 ∧ r.discovery_group ≠ "R" := by
    intro hmem
    unfold build_catalog at hmem
    have h2 := List.mem_filter.mp hmem
    have h3 := List.mem_filter.mp h2.1
    constructor
    · simpa using h3.2
    · simpa using h2.2
  refine ⟨hmain, fun d col v hmem => hmain ?_⟩
  unfold subset_records current_disorder_records at hmem
  exact (List.mem_filter.mp (List.mem_filter.mp hmem).1).1

/-- Witness for C10 at the concrete raw table: the zero-probability row
and the R row are dropped, and the surviving finding record satisfies the
invariant both in the catalog and in its sampling partition. -/
theorem C10_catalog_invariant_witness : exF1 ∈ build_catalog exRaw ∧ (exF1.probability ≠ 0 ∧ exF1.discovery_group ≠ "R") ∧ exF1 ∈ subset_records (build_catalog exRaw) "A" ColKey.discovery_group "F" ∧ (exF1.probability ≠ 0 ∧ exF1.discovery_group ≠ "R") :=
  ⟨by with_unfolding_all decide,
    (C10_catalog_invariant exRaw exF1).1 (by with_unfolding_all decide),
    by with_unfolding_all decide,
    (C10_catalog_invariant exRaw exF1).2 "A" ColKey.discovery_group "F"
      (by with_unfolding_all decide)⟩

/-- Restricting a frame to prerequisite_needed N and then to a disorder
filters to exactly the disorder rows flagged N, so the disorder total of
the N-restricted frame is the probability sum over those rows alone. -/
theorem prereq_frame_total (df : List Record) (d : String) : disorder_total (prereq_frame df) d = ((df.filter (fun r => r.disorder == d && r.prerequisite_needed == "N")).map (fun r => r.probability)).sum := by
  unfold disorder_total current_disorder_records prereq_frame
  induction df with
  | nil => rfl
  | cons a t ih =>
    by_cases hN : (a.prerequisite_needed == "N") = true <;>
      by_cases hD : (a.disorder == d) = true <;>
        simp [List.filter_cons, hN, hD, ih]

/-- C8: the prerequisite draw inside generate_single_patient is a
phenotype_choice over the frame pre-filtered to prerequisite_needed N, so
its proportional size basis divides by the probability sum over only the
disorder rows flagged N; at the concrete catalog this denominator (2)
differs from the disorder total over all rows (3). -/
theorem C8_prereq_denominator : (∀ df d f tp rng, prereq_draw df d f tp rng = phenotype_choice (prereq_frame df) d ColKey.HPO_category f tp rng) ∧ (∀ df d, disorder_total (prereq_frame df) d = ((df.filter (fun r => r.disorder == d && r.prerequisite_needed == "N")).map (fun r => r.probability)).sum) ∧ disorder_total (prereq_frame exCat) "A" ≠ disorder_total exCat "A" :=
  ⟨fun _ _ _ _ _ => rfl, prereq_frame_total, by with_unfolding_all decide⟩

/-- C4: every profile returned by generate_single_patient begins with the
caller-supplied identity fields and continues with the developmental
draw, then the symptom draw followed by the injected prerequisite list,
then the finding draw: every developmental name precedes every symptom
name, which precedes every finding name. -/
theorem C4_profile_order (df : List Record) (disorder : String) (tp : Int) (info : List String) (rngs : Nat → Rng) (l : List String) (h : generate_single_patient df disorder tp info rngs = Except.ok l) : ∃ fin sym dev spl, phenotype_choice df disorder ColKey.discovery_group "F" tp (rngs 0) = Except.ok fin ∧ phenotype_choice df disorder ColKey.discovery_group "S" tp (rngs 1) = Except.ok sym ∧ phenotype_choice df disorder ColKey.discovery_group "D" tp (rngs 2) = Except.ok dev ∧ l = info ++ dev ++ (sym ++ spl) ++ fin := by
  unfold generate_single_patient at h
  split at h
  · simp at h
  · rename_i fin hF
    split at h
    · simp at h
    · rename_i sym hS
      split at h
      · simp at h
      · rename_i dev hD
        split at h
        · simp only [Except.ok.injEq] at h
          refine ⟨fin, sym, dev, [], hF, hS, hD, ?_⟩
          simp [← h]
        · split at h
          · simp at h
          · rename_i spl hloop
            simp only [Except.ok.injEq] at h
            refine ⟨fin, sym, dev, spl, hF, hS, hD, ?_⟩
            by_cases hsym : sym.isEmpty
            · rw [List.isEmpty_iff] at hsym
              subst hsym
              simp_all
            · simp only [hsym, if_neg, Bool.false_eq_true, not_false_eq_true] at h
              simp [← h]

/-- Witness for C4 at the concrete catalog: the profile returned for
disorder A decomposes as identity, developmental draw (empty), symptom
draw plus injected list, finding draw. -/
theorem C4_profile_order_witness : ∃ fin sym dev spl, phenotype_choice exCat "A" ColKey.discovery_group "F" 1 (exRngs 0) = Except.ok fin ∧ phenotype_choice exCat "A" ColKey.discovery_group "S" 1 (exRngs 1) = Except.ok sym ∧ phenotype_choice exCat "A" ColKey.discovery_group "D" 1 (exRngs 2) = Except.ok dev ∧ (["pat", "s1", "f1"] : List String) = ["pat"] ++ dev ++ (sym ++ spl) ++ fin :=
  C4_profile_order exCat "A" 1 ["pat"] exRngs ["pat", "s1", "f1"]
    (by with_unfolding_all decide)

/-- C1: evaluation of the prerequisite-injection defect.  At the concrete
catalog the flagged finding f1 is drawn, its restricted prerequisite pool
for category X is the non-empty [exS2], the prerequisite draw succeeds and
returns s2, yet the returned profile is exactly [pat, s1, f1]: no symptom
of the prerequisite category is present in the final symptom segment, and
no merge happens, because the guard of line 156 compares the uninvoked
method np.isin(...).any with False and is therefore never true.  The claim
that at least one prerequisite-category symptom is injected, merged
conditionally on absence, fails on the code as written. -/
theorem C1_prereq_never_injected : subset_records (prereq_frame exCat) "A" ColKey.HPO_category "X" = [exS2] ∧ prereq_draw exCat "A" "X" 1 (exRngs 3) = Except.ok ["s2"] ∧ generate_single_patient exCat "A" 1 ["pat"] exRngs = Except.ok ["pat", "s1", "f1"] ∧ "s2" ∉ (["pat", "s1", "f1"] : List String) := by
  refine ⟨?_, ?_, ?_, ?_⟩
  · with_unfolding_all decide
  · with_unfolding_all decide
  · with_unfolding_all decide
  · with_unfolding_all decide
